import Mathlib

/-!
# Verification of the catabus-mcp realtime reconciliation core

A shallow embedding, in Lean 4, of the parts of the `catabus_mcp` Python
package that the specification's claims are about:

* `src/catabus_mcp/tools/next_arrivals.py` — `parse_gtfs_time` and the
  arrival reconciler `next_arrivals`;
* `src/catabus_mcp/ingest/realtime_poll.py` — the poll-cycle error
  discipline and the alert-translation selection loop;
* `src/catabus_mcp/tools/list_routes.py`, `vehicle_positions.py`,
  `trip_alerts.py` — the thin query tools.

Modelling conventions:

* Timezone-aware Python `datetime` values are modelled by `AwareDT`: the
  wall-clock seconds since the Unix epoch (`wall`) together with the UTC
  offset in seconds (`utcOff`).  The absolute instant is `wall - utcOff`.
  The service timezone (pytz `America/New_York` in the source) is modelled
  as a UTC-offset parameter `tzOff`; `datetime.combine(date, time, tz)`
  attaches that offset to the combined wall-clock value, and aware-datetime
  comparison and subtraction act on instants, exactly as in Python.
* `datetime.isoformat()` is modelled executably by `isoOfDT`, producing
  `YYYY-MM-DDTHH:MM:SS±HH:MM` (no sub-second part, whole-minute offsets),
  using the standard civil-from-days calendar conversion.
* Python dicts are modelled as insertion-ordered association lists;
  overwriting a key keeps its original position (`upsert`), as Python
  dicts do.  Optional dict keys become `Option` fields; a key that can be
  present with value `None` becomes `Option (Option _)`.
* `list.sort(key=...)` (Timsort: stable, ascending) is modelled by the
  stable `List.insertionSort` on the same key — a stable ascending sort's
  output is uniquely determined, so any stable sort models Timsort
  exactly.  String keys compare by code point (`pyStrLe`), as in Python.
* String splitting and integer parsing are given structurally recursive
  definitions (`pySplit`, `pyInt`) faithful to `str.split` / `int`.
* Floating-point coordinate fields are never computed with — only copied —
  so they are modelled by an opaque numeric alias `PyFloat`.
* Fallible code (Python exceptions) returns `Option`.
-/

/-- A timezone-aware datetime: wall-clock seconds since the epoch plus the
UTC offset (seconds) of its tzinfo.  The absolute instant is
`wall - utcOff`. -/
structure AwareDT where
  wall : Int
  utcOff : Int
deriving Repr, DecidableEq

/-- The absolute instant (epoch seconds) of an aware datetime. -/
def instant (d : AwareDT) : Int := d.wall - d.utcOff

/-- Python `<=` on aware datetimes compares instants. -/
def dtLe (a b : AwareDT) : Bool := decide (instant a ≤ instant b)

/-- `d + timedelta(seconds=s)`: arithmetic acts on the wall clock, the
tzinfo is kept. -/
def pyAddSeconds (d : AwareDT) (s : Int) : AwareDT := ⟨d.wall + s, d.utcOff⟩

/-- `d + timedelta(minutes=m)`. -/
def pyAddMinutes (d : AwareDT) (m : Int) : AwareDT := ⟨d.wall + m * 60, d.utcOff⟩

/-- `datetime.fromtimestamp(t, tz=timezone.utc)`: instant `t`, offset 0. -/
def fromTimestampUTC (t : Int) : AwareDT := ⟨t, 0⟩

/-- Civil calendar date from a day count (days since 1970-01-01),
standard era-based conversion; returns `(year, month, day)`. -/
def civilFromDays (z0 : Int) : Int × Int × Int :=
  let z := z0 + 719468
  let era := z.fdiv 146097
  let doe := z - era * 146097
  let yoe := (doe - doe / 1460 + doe / 36524 - doe / 146096) / 365
  let y := yoe + era * 400
  let doy := doe - (365 * yoe + yoe / 4 - yoe / 100)
  let mp := (5 * doy + 2) / 153
  let d := doy - (153 * mp + 2) / 5 + 1
  let m := mp + (if mp < 10 then 3 else -9)
  (y + (if m ≤ 2 then 1 else 0), m, d)

/-- Zero-pad a (two-digit-range) integer to width 2. -/
def pad2 (n : Int) : String := if n < 10 then "0" ++ toString n else toString n

/-- Render a UTC offset as `±HH:MM` (as Python `isoformat` does for
whole-minute offsets). -/
def offsetStr (off : Int) : String :=
  if off < 0 then "-" ++ pad2 ((-off) / 3600) ++ ":" ++ pad2 (((-off) % 3600) / 60)
  else "+" ++ pad2 (off / 3600) ++ ":" ++ pad2 ((off % 3600) / 60)

/-- `datetime.isoformat()` for a whole-second aware datetime:
`YYYY-MM-DDTHH:MM:SS±HH:MM`. -/
def isoOfDT (dt : AwareDT) : String :=
  let days := dt.wall.fdiv 86400
  let sod := dt.wall - days * 86400
  let c := civilFromDays days
  toString c.1 ++ "-" ++ pad2 c.2.1 ++ "-" ++ pad2 c.2.2 ++ "T" ++
    pad2 (sod / 3600) ++ ":" ++ pad2 ((sod % 3600) / 60) ++ ":" ++ pad2 (sod % 60) ++
    offsetStr dt.utcOff

/-- Helper for `pySplit`: walk the character list, cutting at each
separator (consecutive separators yield empty pieces, as in Python). -/
def pySplitAux (sep : Char) : List Char → List Char → List String
  | [], acc => [⟨acc.reverse⟩]
  | c :: cs, acc =>
    if c == sep then ⟨acc.reverse⟩ :: pySplitAux sep cs []
    else pySplitAux sep cs (c :: acc)

/-- Python `s.split(sep)` for a single-character separator. -/
def pySplit (sep : Char) (s : String) : List String := pySplitAux sep s.data []

/-- Accumulate decimal digits; `none` on any non-digit character. -/
def digitsToNat (acc : Nat) : List Char → Option Nat
  | [] => some acc
  | c :: cs =>
    if 48 ≤ c.toNat ∧ c.toNat ≤ 57 then digitsToNat (acc * 10 + (c.toNat - 48)) cs
    else none

/-- Python `int(s)` restricted to the shapes the feed contains: an optional
leading minus sign followed by decimal digits.  `none` models `ValueError`. -/
def pyInt (s : String) : Option Int :=
  match s.data with
  | [] => none
  | c :: rest =>
    if c == '-' then
      match rest with
      | [] => none
      | _ => (digitsToNat 0 rest).map (fun n => -(n : Int))
    else (digitsToNat 0 (c :: rest)).map (fun n => (n : Int))

/-- Lexicographic `≤` on code-point lists (Python string comparison). -/
def strLeAux : List Char → List Char → Bool
  | [], _ => true
  | _ :: _, [] => false
  | a :: as, b :: bs =>
    if a.toNat = b.toNat then strLeAux as bs else decide (a.toNat ≤ b.toNat)

/-- Python `a <= b` on strings: lexicographic by code point. -/
def pyStrLe (a b : String) : Bool := strLeAux a.data b.data

/-- Python `datetime.time(hour, minute, second)`: validates the ranges and
raises `ValueError` (here `none`) outside them. -/
structure PyTime where
  hour : Int
  minute : Int
  second : Int
deriving Repr, DecidableEq

/-- `time(h, m, s)` constructor with Python's range validation. -/
def pyTime (h m s : Int) : Option PyTime :=
  if 0 ≤ h ∧ h < 24 ∧ 0 ≤ m ∧ m < 60 ∧ 0 ≤ s ∧ s < 60 then some ⟨h, m, s⟩ else none

/-- `parse_gtfs_time` (next_arrivals.py lines 12–23): split on `":"`,
read hour/minute/second (seconds default 0 when only two parts), and
split hours ≥ 24 into a day offset plus a wall-clock hour.  Returns the
`time` value and the day offset; `none` models the `IndexError` /
`ValueError` a malformed string raises. -/
def parse_gtfs_time (time_str : String) : Option (PyTime × Int) :=
  match pySplit ':' time_str with
  | p0 :: p1 :: rest =>
    match pyInt p0, pyInt p1,
          (match rest with | [] => some (0 : Int) | p2 :: _ => pyInt p2) with
    | some hours, some minutes, some seconds =>
      let days_offset := hours.fdiv 24
      let hours := hours.fmod 24
      (pyTime hours minutes seconds).map (fun t => (t, days_offset))
    | _, _, _ => none
  | _ => none

/-- Lines 58–63 of `next_arrivals`: resolve a GTFS time string to the
aware datetime `datetime.combine(now.date() + timedelta(days=days_offset),
arrival_time, eastern)` — the wall clock of day `nowDate + days_offset`
at the parsed wall time, carrying the service-timezone offset `tzOff`. -/
def resolveScheduled (nowDate tzOff : Int) (time_str : String) : Option AwareDT :=
  (parse_gtfs_time time_str).map fun pr =>
    ⟨(nowDate + pr.2) * 86400 + pr.1.hour * 3600 + pr.1.minute * 60 + pr.1.second, tzOff⟩

/-! ## Static and realtime data model (static_loader.py / realtime_poll.py) -/

/-- Float fields (coordinates, bearing, speed) are only ever copied, never
computed with; an opaque numeric alias suffices. -/
abbrev PyFloat := Int

/-- `static_loader.Trip` (the fields `next_arrivals` reads). -/
structure Trip where
  trip_id : String
  route_id : String
deriving Repr, DecidableEq

/-- `static_loader.Route`. -/
structure Route where
  route_id : String
  route_short_name : String
  route_long_name : String
  route_color : Option String := none
deriving Repr, DecidableEq

/-- `static_loader.StopTime`. -/
structure StopTime where
  trip_id : String
  stop_id : String
  arrival_time : String
  stop_sequence : Int
deriving Repr, DecidableEq

/-- `static_loader.GTFSData` (the parts the tools read); dicts are
insertion-ordered association lists. -/
structure GTFSData where
  routes : List (String × Route) := []
  trips : List (String × Trip) := []
  stop_times : List StopTime := []
deriving Repr

/-- One entry of `TripUpdate.stop_time_updates` — a Python dict built by
`_poll_trip_updates` (realtime_poll.py lines 153–168).  `Option` on a
field means the key may be absent; `arrival_time` / `departure_time` keys,
when present, may hold `None`, hence `Option (Option Int)`. -/
structure StopTimeUpdate where
  stop_id : String
  stop_sequence : Option Int := none
  arrival_delay : Option Int := none
  arrival_time : Option (Option Int) := none
  departure_delay : Option Int := none
  departure_time : Option (Option Int) := none
deriving Repr, DecidableEq

/-- `realtime_poll.TripUpdate`. -/
structure TripUpdate where
  trip_id : String
  route_id : Option String := none
  vehicle_id : Option String := none
  timestamp : Int := 0
  stop_time_updates : List StopTimeUpdate := []
deriving Repr, DecidableEq

/-- `realtime_poll.VehiclePosition`. -/
structure VehiclePosition where
  vehicle_id : String
  trip_id : Option String := none
  route_id : Option String := none
  latitude : PyFloat
  longitude : PyFloat
  bearing : Option PyFloat := none
  speed : Option PyFloat := none
  occupancy_status : Option String := none
deriving Repr, DecidableEq

/-- One informed-entity dict built by `_poll_alerts` (lines 227–236):
each key present only when the wire field is. -/
structure InformedEntity where
  route_id : Option String := none
  trip_id : Option String := none
  stop_id : Option String := none
deriving Repr, DecidableEq

/-- `realtime_poll.ServiceAlert` (active periods as optional start/end
instants). -/
structure ServiceAlert where
  alert_id : String
  header : String
  description : Option String := none
  severity : String := "UNKNOWN"
  active_periods : List (Option Int × Option Int) := []
  informed_entities : List InformedEntity := []
deriving Repr, DecidableEq

/-- `realtime_poll.RealtimeData`. -/
structure RealtimeData where
  vehicle_positions : List (String × VehiclePosition) := []
  trip_updates : List (String × TripUpdate) := []
  alerts : List ServiceAlert := []
  last_vehicle_update : Option Int := none
  last_trip_update : Option Int := none
  last_alert_update : Option Int := none
deriving Repr

/-! ## The arrival reconciler (next_arrivals.py lines 26–110) -/

/-- Python-dict assignment `d[k] = v` on an insertion-ordered association
list: an existing key keeps its position and gets the new value; a new key
is appended. -/
def upsert {α : Type} (k : String) (v : α) : List (String × α) → List (String × α)
  | [] => [(k, v)]
  | (k', v') :: rest => if k' == k then (k', v) :: rest else (k', v') :: upsert k v rest

/-- The window filter of line 66: `now <= scheduled_datetime <= horizon`
(aware-datetime comparison, i.e. on instants; both bounds inclusive). -/
def inWindow (nowDT horizonDT sched : AwareDT) : Bool :=
  dtLe nowDT sched && dtLe sched horizonDT

/-- The value stored in the `scheduled` dict (lines 69–74). -/
structure SchedInfo where
  route_id : String
  scheduled_arrival : AwareDT
  stop_sequence : Int
deriving Repr, DecidableEq

/-- The `scheduled` dict build loop (lines 52–74): skip stop-times for
other stops; parse the arrival string (a parse failure raises, hence
`none`); keep those inside `[now, horizon]` whose trip is known, keyed by
trip id — a later stop-time for the same trip overwrites the earlier
value. -/
def buildGo (sid : String) (nowDT horizonDT : AwareDT) (nowDate tzOff : Int)
    (trips : List (String × Trip)) :
    List StopTime → List (String × SchedInfo) → Option (List (String × SchedInfo))
  | [], tbl => some tbl
  | st :: rest, tbl =>
    if st.stop_id == sid then
      match resolveScheduled nowDate tzOff st.arrival_time with
      | none => none
      | some sched =>
        if inWindow nowDT horizonDT sched then
          match trips.lookup st.trip_id with
          | some trip =>
            buildGo sid nowDT horizonDT nowDate tzOff trips rest
              (upsert st.trip_id ⟨trip.route_id, sched, st.stop_sequence⟩ tbl)
          | none => buildGo sid nowDT horizonDT nowDate tzOff trips rest tbl
        else buildGo sid nowDT horizonDT nowDate tzOff trips rest tbl
    else buildGo sid nowDT horizonDT nowDate tzOff trips rest tbl

/-- One emitted arrival record (lines 78–83).  `arrival_dt` is the
datetime whose `isoformat` is emitted as `arrival_time_iso`. -/
structure ArrivalInfo where
  trip_id : String
  route_id : String
  arrival_dt : AwareDT
  arrival_time_iso : String
  delay_sec : Int
deriving Repr, DecidableEq

/-- Lines 77–105, the per-trip reconciliation: start from delay 0 and the
scheduled instant; if the snapshot holds a trip update for this trip, scan
its stop-time updates for the first entry with this stop id; then the
`arrival_delay` key (if present) wins — the scheduled instant is shifted
by the delay — and only otherwise a truthy `arrival_time` replaces the
prediction with the absolute UTC instant, recomputing the delay as the
difference from the scheduled instant. -/
def reconcileArrival (rtd : RealtimeData) (stop_id trip_id : String)
    (si : SchedInfo) : ArrivalInfo :=
  let base : ArrivalInfo :=
    ⟨trip_id, si.route_id, si.scheduled_arrival, isoOfDT si.scheduled_arrival, 0⟩
  match rtd.trip_updates.lookup trip_id with
  | none => base
  | some tu =>
    match tu.stop_time_updates.find? (fun stu => stu.stop_id == stop_id) with
    | none => base
    | some stu =>
      match stu.arrival_delay with
      | some d =>
        let adjusted := pyAddSeconds si.scheduled_arrival d
        ⟨trip_id, si.route_id, adjusted, isoOfDT adjusted, d⟩
      | none =>
        match stu.arrival_time with
        | some (some t) =>
          if t ≠ 0 then
            let adt := fromTimestampUTC t
            ⟨trip_id, si.route_id, adt, isoOfDT adt, t - instant si.scheduled_arrival⟩
          else base
        | _ => base

/-- The comparison `arrivals.sort(key=lambda x: x["arrival_time_iso"])`
sorts by: the ISO strings, lexicographically by code point. -/
def isoLe (a b : ArrivalInfo) : Prop :=
  pyStrLe a.arrival_time_iso b.arrival_time_iso = true

instance : DecidableRel isoLe := fun _ _ => instDecidableEqBool _ _

/-- `arrivals.sort(key=lambda x: x["arrival_time_iso"])`: Python's stable
ascending sort on the ISO string (any stable ascending sort computes the
same list, so insertion sort models Timsort exactly). -/
def pySortByIso (l : List ArrivalInfo) : List ArrivalInfo :=
  List.insertionSort isoLe l

/-- The arrival list before the final sort: the `scheduled` table mapped
through the per-trip reconciliation, in table (insertion) order. -/
def unsortedArrivals (g : GTFSData) (rtd : RealtimeData) (stop_id : String)
    (horizon_minutes : Int) (nowWall tzOff : Int) : Option (List ArrivalInfo) :=
  let nowDT : AwareDT := ⟨nowWall, tzOff⟩
  let horizonDT := pyAddMinutes nowDT horizon_minutes
  (buildGo stop_id nowDT horizonDT (nowWall.fdiv 86400) tzOff g.trips g.stop_times []).map
    fun tbl => tbl.map fun kv => reconcileArrival rtd stop_id kv.1 kv.2

/-- `next_arrivals(gtfs_data, realtime_data, stop_id, horizon_minutes)`
with `now` (wall clock in the service timezone) and the service-timezone
offset made explicit parameters; `none` models the exception a malformed
schedule time raises. -/
def next_arrivals (g : GTFSData) (rtd : RealtimeData) (stop_id : String)
    (horizon_minutes : Int) (nowWall tzOff : Int) : Option (List ArrivalInfo) :=
  (unsortedArrivals g rtd stop_id horizon_minutes nowWall tzOff).map pySortByIso

/-! ## Query tools (list_routes.py, vehicle_positions.py, trip_alerts.py) -/

/-- One record of the `list_routes` output (lines 17–22): the color is
rendered as `"#" + route_color` when the color value is truthy, else
`None` — Python treats both a missing color and an empty string as
falsy. -/
structure RouteOut where
  route_id : String
  short_name : String
  long_name : String
  color : Option String
deriving Repr, DecidableEq

/-- The `list_routes` per-route projection (lines 17–22). -/
def routeToOut (r : Route) : RouteOut :=
  ⟨r.route_id, r.route_short_name, r.route_long_name,
    match r.route_color with
    | some c => if c ≠ "" then some ("#" ++ c) else none
    | none => none⟩

/-- `routes.sort(key=lambda x: x["short_name"])` comparison. -/
def shortNameLe (a b : RouteOut) : Prop :=
  pyStrLe a.short_name b.short_name = true

instance : DecidableRel shortNameLe := fun _ _ => instDecidableEqBool _ _

/-- `list_routes(gtfs_data)` (list_routes.py lines 8–26): project every
route, then sort ascending by short name (stable). -/
def list_routes (g : GTFSData) : List RouteOut :=
  List.insertionSort shortNameLe (g.routes.map fun kv => routeToOut kv.2)

/-- One record of the `vehicle_positions` output (lines 24–30). -/
structure VehicleOut where
  vehicle_id : String
  lat : PyFloat
  lon : PyFloat
  bearing : Option PyFloat
  speed_mps : Option PyFloat
deriving Repr, DecidableEq

/-- `vehicle_positions(realtime_data, route_id)` (vehicle_positions.py
lines 8–32): keep the vehicles whose (optional) route id equals the
requested one — `None == route_id` is false in Python — in snapshot
order. -/
def vehicle_positions (rtd : RealtimeData) (route_id : String) : List VehicleOut :=
  rtd.vehicle_positions.filterMap fun kv =>
    if kv.2.route_id == some route_id then
      some ⟨kv.1, kv.2.latitude, kv.2.longitude, kv.2.bearing, kv.2.speed⟩
    else none

/-- One record of the `trip_alerts` output (lines 38–44). -/
structure AlertOut where
  route_id : Option String
  affected_routes : List String
  header : String
  description : Option String
  severity : String
deriving Repr, DecidableEq

/-- Lines 24–28: an alert is relevant to a route when some informed
entity carries exactly that route id. -/
def alertRelevant (route_id : String) (a : ServiceAlert) : Bool :=
  a.informed_entities.any fun e => e.route_id == some route_id

/-- Lines 32–44: project an alert to the output record; `route_id` is the
single affected route when there is exactly one, else `None`. -/
def alertToOut (a : ServiceAlert) : AlertOut :=
  let affected := a.informed_entities.filterMap (fun e => e.route_id)
  ⟨if affected.length == 1 then affected.head? else none,
    affected, a.header, a.description, a.severity⟩

/-- `trip_alerts(realtime_data, route_id)` (trip_alerts.py lines 8–46).
`if route_id:` is Python truthiness: `None` and `""` both skip the
relevance filter. -/
def trip_alerts (rtd : RealtimeData) (route_id : Option String) : List AlertOut :=
  (rtd.alerts.filter fun a =>
      match route_id with
      | some r => if r ≠ "" then alertRelevant r a else true
      | none => true).map alertToOut

/-! ## The poll cycle (realtime_poll.py lines 103–255)

Each of `_poll_vehicle_positions`, `_poll_trip_updates` and `_poll_alerts`
runs the same shape of cycle over its own category state:
`data = await self._fetch_protobuf(url)` (`None` on any fetch error);
`if data:` guards decode + transform + publish; the whole body sits in a
`try/except` that logs and swallows any decode/transform exception; the
two publish assignments (snapshot, then freshness timestamp) are the last
statements of the success path.  The category's snapshot type is the type
parameter `α`; decode-plus-transform is a function to `Option α`. -/

/-- One category's slice of `RealtimeData`: its snapshot container and its
`last_*_update` freshness timestamp. -/
structure PollState (α : Type) where
  snapshot : α
  lastUpdate : Option Int
deriving Repr, DecidableEq

/-- What one cycle observes: the fetch result (`none` models a fetch
error turned into `None` by `_fetch_protobuf`) and the current time used
for `datetime.now(timezone.utc)`. -/
structure PollInput where
  fetched : Option (List Nat)
  time : Int
deriving Repr, DecidableEq

/-- One poll cycle: publish the decoded snapshot and the new freshness
timestamp only when the fetch produced truthy bytes and decode + transform
succeeded; otherwise leave the category state exactly as it was. -/
def pollCycle {α : Type} (decode : List Nat → Option α) (c : PollInput)
    (s : PollState α) : PollState α :=
  match c.fetched with
  | none => s
  | some bytes =>
    if bytes.isEmpty then s
    else
      match decode bytes with
      | none => s
      | some snap => ⟨snap, some c.time⟩

/-- A cycle fails when the fetch returned `None`, the payload was falsy
(empty), or decode/transform raised. -/
def cycleFails {α : Type} (decode : List Nat → Option α) (c : PollInput) : Prop :=
  match c.fetched with
  | none => True
  | some bytes => bytes = [] ∨ decode bytes = none

/-- The `while self._running:` loop, run over a finite prefix of cycle
inputs: every iteration — failed or not — proceeds to the next. -/
def pollLoop {α : Type} (decode : List Nat → Option α) (cs : List PollInput)
    (s : PollState α) : PollState α :=
  cs.foldl (fun st c => pollCycle decode c st) s

/-! ## The alert translation selection (realtime_poll.py lines 204–216)

Both `header_text` and `description_text` run the same loop:
`text = ""`, then for each translation,
`if translation.language == "en" or not text: text = translation.text`. -/

/-- The translation-selection loop; a translation is a
`(language, text)` pair. -/
def selectTranslationText (translations : List (String × String)) : String :=
  translations.foldl (fun acc tr => if tr.1 == "en" || acc == "" then tr.2 else acc) ""

/-! ## Order properties of the Python string comparison -/

theorem strLeAux_refl : ∀ as : List Char, strLeAux as as = true
  | [] => rfl
  | a :: as => by simp [strLeAux, strLeAux_refl as]

theorem strLeAux_total : ∀ as bs : List Char,
    strLeAux as bs = true ∨ strLeAux bs as = true
  | [], _ => Or.inl rfl
  | _ :: _, [] => Or.inr rfl
  | a :: as, b :: bs => by
    by_cases hab : a.toNat = b.toNat
    · have hba : b.toNat = a.toNat := hab.symm
      simp only [strLeAux, if_pos hab, if_pos hba]
      exact strLeAux_total as bs
    · have hba : ¬ b.toNat = a.toNat := fun h => hab h.symm
      simp only [strLeAux, if_neg hab, if_neg hba, decide_eq_true_eq]
      omega

theorem strLeAux_trans : ∀ as bs cs : List Char,
    strLeAux as bs = true → strLeAux bs cs = true → strLeAux as cs = true
  | [], _, _, _, _ => rfl
  | _ :: _, [], _, h1, _ => by simp [strLeAux] at h1
  | _ :: _, _ :: _, [], _, h2 => by simp [strLeAux] at h2
  | a :: as, b :: bs, c :: cs, h1, h2 => by
    simp only [strLeAux] at h1 h2 ⊢
    by_cases hab : a.toNat = b.toNat
    · by_cases hbc : b.toNat = c.toNat
      · rw [if_pos hab] at h1
        rw [if_pos hbc] at h2
        rw [if_pos (hab.trans hbc)]
        exact strLeAux_trans as bs cs h1 h2
      · have hac : ¬ a.toNat = c.toNat := by omega
        rw [if_neg hbc] at h2
        rw [if_neg hac]
        simp only [decide_eq_true_eq] at h2 ⊢
        omega
    · rw [if_neg hab] at h1
      simp only [decide_eq_true_eq] at h1
      by_cases hbc : b.toNat = c.toNat
      · have hac : ¬ a.toNat = c.toNat := by omega
        rw [if_neg hac]
        simp only [decide_eq_true_eq]
        omega
      · rw [if_neg hbc] at h2
        simp only [decide_eq_true_eq] at h2
        have hac : ¬ a.toNat = c.toNat := by omega
        rw [if_neg hac]
        simp only [decide_eq_true_eq]
        omega

instance : IsTotal ArrivalInfo isoLe :=
  ⟨fun a b => strLeAux_total a.arrival_time_iso.data b.arrival_time_iso.data⟩

instance : IsTrans ArrivalInfo isoLe :=
  ⟨fun a b c => strLeAux_trans a.arrival_time_iso.data b.arrival_time_iso.data
      c.arrival_time_iso.data⟩

instance : IsTotal RouteOut shortNameLe :=
  ⟨fun a b => strLeAux_total a.short_name.data b.short_name.data⟩

instance : IsTrans RouteOut shortNameLe :=
  ⟨fun a b c => strLeAux_trans a.short_name.data b.short_name.data c.short_name.data⟩

/-! ## Claim C5 — GTFS day-relative time resolution -/

/-- C5: for every day-relative time string `HH:MM:SS` (three numeric,
colon-separated fields; `HH` may exceed 23; minutes and seconds in
range), the GTFS time model parses it to wall-clock `(HH mod 24):MM:SS`
with day offset `HH div 24`, and resolves it — anchored at reference
date `D` in the service timezone `tz` — to the absolute instant whose
wall clock is that of date `D + HH div 24` at `(HH mod 24):MM:SS` with
offset `tz`. -/
theorem gtfs_time_resolution (s a b c : String) (H M S D tz : Int)
    (hsplit : pySplit ':' s = [a, b, c])
    (hH : pyInt a = some H) (hM : pyInt b = some M) (hS : pyInt c = some S)
    (hH0 : 0 ≤ H) (hM0 : 0 ≤ M) (hM60 : M < 60) (hS0 : 0 ≤ S) (hS60 : S < 60) :
    parse_gtfs_time s = some (⟨H.fmod 24, M, S⟩, H.fdiv 24) ∧
    resolveScheduled D tz s =
      some ⟨(D + H.fdiv 24) * 86400 + (H.fmod 24) * 3600 + M * 60 + S, tz⟩ := by
  have hmod0 : 0 ≤ H.fmod 24 := Int.fmod_nonneg' H (by omega)
  have hmod24 : H.fmod 24 < 24 := Int.fmod_lt_of_pos H (by omega)
  have hparse : parse_gtfs_time s = some (⟨H.fmod 24, M, S⟩, H.fdiv 24) := by
    unfold parse_gtfs_time
    rw [hsplit]
    simp only [hH, hM, hS]
    unfold pyTime
    rw [if_pos (by omega)]
    rfl
  refine ⟨hparse, ?_⟩
  unfold resolveScheduled
  rw [hparse]
  rfl

/-- Witness for C5: `"25:30:00"` anchored at day `D = 100` resolves to
day 101 at 01:30:00 local, and the two-day overflow `"48:15:00"` to day
102 at 00:15:00 local (offset `tz = -14400` in both). -/
theorem gtfs_time_resolution_witness :
    parse_gtfs_time "25:30:00" = some (⟨1, 30, 0⟩, 1) ∧
    resolveScheduled 100 (-14400) "25:30:00" =
      some ⟨101 * 86400 + 1 * 3600 + 30 * 60, -14400⟩ ∧
    parse_gtfs_time "48:15:00" = some (⟨0, 15, 0⟩, 2) ∧
    resolveScheduled 100 (-14400) "48:15:00" =
      some ⟨102 * 86400 + 15 * 60, -14400⟩ := by
  have h1 := gtfs_time_resolution "25:30:00" "25" "30" "00" 25 30 0 100 (-14400)
    (by decide) (by decide) (by decide) (by decide)
    (by decide) (by decide) (by decide) (by decide) (by decide)
  have h2 := gtfs_time_resolution "48:15:00" "48" "15" "00" 48 15 0 100 (-14400)
    (by decide) (by decide) (by decide) (by decide)
    (by decide) (by decide) (by decide) (by decide) (by decide)
  refine ⟨?_, ?_, ?_, ?_⟩
  · simpa using h1.1
  · simpa using h1.2
  · simpa using h2.1
  · simpa using h2.2

/-! ## Claim C4 — delay application and schedule-only default -/

/-- C4: when the matched stop-time update carries `arrival_delay = d` and
no absolute arrival time, the reconciled prediction is the scheduled
instant shifted by `d` seconds with `delay_sec = d`; and with no trip
update for the trip, or no stop-time update matching the stop, the
prediction is the scheduled instant itself with `delay_sec = 0`. -/
theorem delay_applied_and_default (rtd : RealtimeData) (sid tid : String)
    (si : SchedInfo) (tu : TripUpdate) (stu : StopTimeUpdate) (d : Int) :
    (rtd.trip_updates.lookup tid = some tu →
      tu.stop_time_updates.find? (fun u => u.stop_id == sid) = some stu →
      stu.arrival_delay = some d → stu.arrival_time = none →
      (reconcileArrival rtd sid tid si).delay_sec = d ∧
      (reconcileArrival rtd sid tid si).arrival_dt = pyAddSeconds si.scheduled_arrival d ∧
      instant (reconcileArrival rtd sid tid si).arrival_dt =
        instant si.scheduled_arrival + d) ∧
    (rtd.trip_updates.lookup tid = none →
      (reconcileArrival rtd sid tid si).delay_sec = 0 ∧
      (reconcileArrival rtd sid tid si).arrival_dt = si.scheduled_arrival) ∧
    (rtd.trip_updates.lookup tid = some tu →
      tu.stop_time_updates.find? (fun u => u.stop_id == sid) = none →
      (reconcileArrival rtd sid tid si).delay_sec = 0 ∧
      (reconcileArrival rtd sid tid si).arrival_dt = si.scheduled_arrival) := by
  refine ⟨fun hlu hfind hd _ => ?_, fun hlu => ?_, fun hlu hfind => ?_⟩
  · refine ⟨?_, ?_, ?_⟩ <;>
      simp only [reconcileArrival, hlu, hfind, hd, instant, pyAddSeconds] <;>
      ring
  · refine ⟨?_, ?_⟩ <;> simp only [reconcileArrival, hlu]
  · refine ⟨?_, ?_⟩ <;> simp only [reconcileArrival, hlu, hfind]

/-- Witness for C4: a 09:00:00-local scheduled arrival (wall second
1717232400, offset −4 h) with `arrival_delay = 180` reconciles to
scheduled + 180 s and `delay_sec = 180`; a trip with no update keeps the
scheduled instant and `delay_sec = 0`. -/
theorem delay_applied_and_default_witness :
    (reconcileArrival
        ⟨[], [("T1", ⟨"T1", none, none, 0,
          [⟨"S1", none, some 180, none, none, none⟩]⟩)], [], none, none, none⟩
        "S1" "T1" ⟨"R1", ⟨1717232400, -14400⟩, 3⟩).delay_sec = 180 ∧
    (reconcileArrival
        ⟨[], [("T1", ⟨"T1", none, none, 0,
          [⟨"S1", none, some 180, none, none, none⟩]⟩)], [], none, none, none⟩
        "S1" "T1" ⟨"R1", ⟨1717232400, -14400⟩, 3⟩).arrival_dt =
      pyAddSeconds ⟨1717232400, -14400⟩ 180 ∧
    (reconcileArrival ⟨[], [], [], none, none, none⟩
        "S1" "T2" ⟨"R1", ⟨1717232400, -14400⟩, 3⟩).delay_sec = 0 ∧
    (reconcileArrival ⟨[], [], [], none, none, none⟩
        "S1" "T2" ⟨"R1", ⟨1717232400, -14400⟩, 3⟩).arrival_dt =
      ⟨1717232400, -14400⟩ := by
  have h1 := (delay_applied_and_default
      ⟨[], [("T1", ⟨"T1", none, none, 0,
        [⟨"S1", none, some 180, none, none, none⟩]⟩)], [], none, none, none⟩
      "S1" "T1" ⟨"R1", ⟨1717232400, -14400⟩, 3⟩
      ⟨"T1", none, none, 0, [⟨"S1", none, some 180, none, none, none⟩]⟩
      ⟨"S1", none, some 180, none, none, none⟩ 180).1
      (by decide) (by decide) rfl rfl
  have h2 := (delay_applied_and_default ⟨[], [], [], none, none, none⟩
      "S1" "T2" ⟨"R1", ⟨1717232400, -14400⟩, 3⟩
      ⟨"T2", none, none, 0, []⟩ ⟨"S1", none, none, none, none, none⟩ 0).2.1 rfl
  exact ⟨h1.1, h1.2.1, h2.1, h2.2⟩

/-! ## Claim C1 — which of delay / absolute time takes precedence -/

/-- A realtime snapshot whose single stop-time update carries BOTH an
`arrival_delay` (600 s) and a truthy absolute `arrival_time`
(1717236000 = 2024-06-01T10:00:00Z). -/
def rtBoth : RealtimeData :=
  { trip_updates := [("T1", ⟨"T1", none, none, 0,
      [⟨"S1", none, some 600, some (some 1717236000), none, none⟩]⟩)] }

/-- The scheduled info used against `rtBoth`: 09:00:00 local at offset
−4 h (instant 1717246800). -/
def siBoth : SchedInfo := ⟨"R1", ⟨1717232400, -14400⟩, 1⟩

/-- Counterexample to C1: with both an absolute arrival time and a delay
present, the reconciler uses the delay (600) — the prediction is
scheduled + 600 s, not the absolute time 1717236000, and `delay_sec` is
600, not `absolute − scheduled` (= −10800).  The absolute time does NOT
take precedence. -/
theorem arrival_precedence_cex :
    (reconcileArrival rtBoth "S1" "T1" siBoth).delay_sec = 600 ∧
    instant (reconcileArrival rtBoth "S1" "T1" siBoth).arrival_dt =
      instant siBoth.scheduled_arrival + 600 ∧
    instant (reconcileArrival rtBoth "S1" "T1" siBoth).arrival_dt ≠ 1717236000 ∧
    (reconcileArrival rtBoth "S1" "T1" siBoth).delay_sec ≠
      1717236000 - instant siBoth.scheduled_arrival := by
  refine ⟨by decide, by decide, by decide, by decide⟩

/-- C1 as amended: the DELAY takes precedence — whenever the matched
stop-time update carries an `arrival_delay` key the prediction is the
scheduled instant shifted by that delay, regardless of any absolute
time; the absolute arrival time is used (prediction = the absolute UTC
instant, `delay_sec` = absolute − scheduled in whole seconds) only when
no `arrival_delay` key is present and the absolute value is truthy. -/
theorem arrival_precedence (rtd : RealtimeData) (sid tid : String)
    (si : SchedInfo) (tu : TripUpdate) (stu : StopTimeUpdate)
    (hlu : rtd.trip_updates.lookup tid = some tu)
    (hfind : tu.stop_time_updates.find? (fun u => u.stop_id == sid) = some stu) :
    (∀ d : Int, stu.arrival_delay = some d →
      (reconcileArrival rtd sid tid si).arrival_dt =
        pyAddSeconds si.scheduled_arrival d ∧
      (reconcileArrival rtd sid tid si).delay_sec = d) ∧
    (∀ t : Int, stu.arrival_delay = none → stu.arrival_time = some (some t) →
      t ≠ 0 →
      (reconcileArrival rtd sid tid si).arrival_dt = fromTimestampUTC t ∧
      instant (reconcileArrival rtd sid tid si).arrival_dt = t ∧
      (reconcileArrival rtd sid tid si).delay_sec =
        t - instant si.scheduled_arrival) := by
  constructor
  · intro d hd
    refine ⟨?_, ?_⟩ <;> simp only [reconcileArrival, hlu, hfind, hd]
  · intro t hd ht ht0
    refine ⟨?_, ?_, ?_⟩ <;>
      simp only [reconcileArrival, hlu, hfind, hd, ht, if_pos ht0, instant,
        fromTimestampUTC] <;>
      ring

/-- Witness for the amended C1: a stop-time update carrying only a truthy
absolute arrival time (1717236000) against a schedule instant 1717246800
yields the absolute UTC instant and `delay_sec = −10800`. -/
theorem arrival_precedence_witness :
    (reconcileArrival
        ⟨[], [("T2", ⟨"T2", none, none, 0,
          [⟨"S2", none, none, some (some 1717236000), none, none⟩]⟩)], [],
          none, none, none⟩
        "S2" "T2" ⟨"R2", ⟨1717232400, -14400⟩, 1⟩).arrival_dt =
      fromTimestampUTC 1717236000 ∧
    (reconcileArrival
        ⟨[], [("T2", ⟨"T2", none, none, 0,
          [⟨"S2", none, none, some (some 1717236000), none, none⟩]⟩)], [],
          none, none, none⟩
        "S2" "T2" ⟨"R2", ⟨1717232400, -14400⟩, 1⟩).delay_sec = -10800 := by
  have h := ((arrival_precedence
      ⟨[], [("T2", ⟨"T2", none, none, 0,
        [⟨"S2", none, none, some (some 1717236000), none, none⟩]⟩)], [],
        none, none, none⟩
      "S2" "T2" ⟨"R2", ⟨1717232400, -14400⟩, 1⟩
      ⟨"T2", none, none, 0, [⟨"S2", none, none, some (some 1717236000), none, none⟩]⟩
      ⟨"S2", none, none, some (some 1717236000), none, none⟩
      (by decide) (by decide)).2) 1717236000 rfl rfl (by decide)
  exact ⟨h.1, by simpa [instant] using h.2.2⟩

/-! ## Claim C8 — the time window is inclusive at both ends -/

/-- C8: the reconciler's window filter `now <= scheduled <= horizon`
(with `horizon = now + horizon_minutes`) retains a stop-time whose
resolved instant equals `now` or equals the horizon exactly — the entry
enters the scheduled table — and discards exactly the instants strictly
outside `[now, horizon]`. -/
theorem horizon_window_inclusive (nowDT : AwareDT) (hm : Int) (sched : AwareDT)
    (sid : String) (st : StopTime) (trip : Trip) (trips : List (String × Trip))
    (nowDate tz : Int) (hhm : 0 ≤ hm)
    (hsid : st.stop_id = sid)
    (hres : resolveScheduled nowDate tz st.arrival_time = some sched)
    (hlu : trips.lookup st.trip_id = some trip) :
    (inWindow nowDT (pyAddMinutes nowDT hm) sched = true ↔
      instant nowDT ≤ instant sched ∧
      instant sched ≤ instant (pyAddMinutes nowDT hm)) ∧
    (instant sched = instant nowDT ∨ instant sched = instant (pyAddMinutes nowDT hm) →
      buildGo sid nowDT (pyAddMinutes nowDT hm) nowDate tz trips [st] [] =
        some [(st.trip_id, ⟨trip.route_id, sched, st.stop_sequence⟩)]) ∧
    (instant sched < instant nowDT ∨ instant (pyAddMinutes nowDT hm) < instant sched →
      buildGo sid nowDT (pyAddMinutes nowDT hm) nowDate tz trips [st] [] =
        some []) := by
  have hiff : inWindow nowDT (pyAddMinutes nowDT hm) sched = true ↔
      instant nowDT ≤ instant sched ∧
      instant sched ≤ instant (pyAddMinutes nowDT hm) := by
    simp [inWindow, dtLe]
  refine ⟨hiff, fun hb => ?_, fun hb => ?_⟩
  · have hin : inWindow nowDT (pyAddMinutes nowDT hm) sched = true := by
      rcases hb with hb | hb <;> rw [hiff] <;>
        simp only [instant, pyAddMinutes] at hb ⊢ <;> omega
    simp [buildGo, hsid, hres, hin, hlu, upsert]
  · have hout : inWindow nowDT (pyAddMinutes nowDT hm) sched = false := by
      rcases hb with hb | hb <;>
        · rw [Bool.eq_false_iff]
          intro hc
          rw [hiff] at hc
          simp only [instant, pyAddMinutes] at hb hc
          omega
    simp [buildGo, hsid, hres, hout]

/-- Witness for C8: with `now` at wall second 1717232400 (offset −4 h)
and a 30-minute horizon, a stop-time resolving exactly to the horizon
instant (09:30:00 local, `"09:30:00"`) is retained, and one one second
past it (`"09:30:01"`) is discarded. -/
theorem horizon_window_inclusive_witness :
    buildGo "S1" ⟨1717232400, -14400⟩ (pyAddMinutes ⟨1717232400, -14400⟩ 30)
        19875 (-14400) [("T1", ⟨"T1", "R1"⟩)]
        [⟨"T1", "S1", "09:30:00", 4⟩] [] =
      some [("T1", ⟨"R1", ⟨1717234200, -14400⟩, 4⟩)] ∧
    buildGo "S1" ⟨1717232400, -14400⟩ (pyAddMinutes ⟨1717232400, -14400⟩ 30)
        19875 (-14400) [("T1", ⟨"T1", "R1"⟩)]
        [⟨"T1", "S1", "09:30:01", 4⟩] [] = some [] := by
  constructor
  · exact (horizon_window_inclusive ⟨1717232400, -14400⟩ 30 ⟨1717234200, -14400⟩
      "S1" ⟨"T1", "S1", "09:30:00", 4⟩ ⟨"T1", "R1"⟩ [("T1", ⟨"T1", "R1"⟩)]
      19875 (-14400) (by decide) rfl (by decide) (by decide)).2.1 (Or.inr (by decide))
  · exact (horizon_window_inclusive ⟨1717232400, -14400⟩ 30 ⟨1717234201, -14400⟩
      "S1" ⟨"T1", "S1", "09:30:01", 4⟩ ⟨"T1", "R1"⟩ [("T1", ⟨"T1", "R1"⟩)]
      19875 (-14400) (by decide) rfl (by decide) (by decide)).2.2 (Or.inr (by decide))

/-! ## Claim C6 — alert translation selection -/

/-- The selection the spec describes (refinement reference, to be compared
with `selectTranslationText` from the source): the FIRST translation
tagged `"en"`; if none, the first available translation; if none at all,
empty text. -/
def selectTranslationSpec (translations : List (String × String)) : String :=
  match translations.find? (fun t => t.1 == "en") with
  | some t => t.2
  | none => match translations with | [] => "" | t :: _ => t.2

/-- Counterexample to C6: with two `"en"`-tagged translations the loop
keeps overwriting on every `"en"` match, so the LAST one wins — the
source selects `"B"` where the spec's rule selects the first, `"A"`. -/
theorem alert_translation_cex :
    selectTranslationText [("en", "A"), ("en", "B")] = "B" ∧
    selectTranslationSpec [("en", "A"), ("en", "B")] = "A" ∧
    selectTranslationText [("en", "A"), ("en", "B")] ≠
      selectTranslationSpec [("en", "A"), ("en", "B")] := by
  refine ⟨by decide, by decide, by decide⟩

/-- The translation fold with a nonempty accumulator keeps the
accumulator unless an `"en"`-tagged translation overwrites it; the result
is the last `"en"`-tagged text, if any. -/
theorem selectTranslationGo (ts : List (String × String)) :
    ∀ acc : String, acc ≠ "" → (∀ t ∈ ts, t.2 ≠ "") →
    ts.foldl (fun acc tr => if tr.1 == "en" || acc == "" then tr.2 else acc) acc =
      match (ts.filter fun t => t.1 == "en").getLast? with
      | some t => t.2
      | none => acc := by
  induction ts with
  | nil => intro acc _ _; rfl
  | cons t rest ih =>
    intro acc hacc h
    have haccb : (acc == "") = false := by
      simpa using hacc
    by_cases het : t.1 == "en"
    · have ht2 : t.2 ≠ "" := h t (List.mem_cons_self t rest)
      have hstep : (if t.1 == "en" || acc == "" then t.2 else acc) = t.2 := by
        rw [het]
        simp
      rw [List.foldl_cons, hstep,
        ih t.2 ht2 (fun u hu => h u (List.mem_cons_of_mem t hu))]
      have hfc : (t :: rest).filter (fun u => u.1 == "en") =
          t :: rest.filter (fun u => u.1 == "en") := by
        simp [List.filter_cons, het]
      rw [hfc]
      cases hf : rest.filter (fun u => u.1 == "en") with
      | nil => simp
      | cons u us =>
        obtain ⟨v, hv⟩ := Option.isSome_iff_exists.mp
          (List.getLast?_isSome.mpr (List.cons_ne_nil u us))
        simp [hv]
    · have hetb : (t.1 == "en") = false := by
        simpa using het
      have hstep : (if t.1 == "en" || acc == "" then t.2 else acc) = acc := by
        rw [hetb, haccb]
        simp
      rw [List.foldl_cons, hstep,
        ih acc hacc (fun u hu => h u (List.mem_cons_of_mem t hu))]
      have hfc : (t :: rest).filter (fun u => u.1 == "en") =
          rest.filter (fun u => u.1 == "en") := by
        simp [List.filter_cons, hetb]
      rw [hfc]

/-- C6 as amended: assuming every translation text is nonempty (an
empty-text translation would itself be overwritten by the fallback), the
selected text is that of the LAST translation tagged `"en"` when one
exists; if no translation carries the tag, the first translation's text
is used; with no translations at all the field is empty text, and no
error is raised (the selection is a total function). -/
theorem alert_translation_selection (ts : List (String × String))
    (h : ∀ t ∈ ts, t.2 ≠ "") :
    selectTranslationText ts =
      match (ts.filter fun t => t.1 == "en").getLast? with
      | some t => t.2
      | none => (match ts with | [] => "" | t :: _ => t.2) := by
  cases ts with
  | nil => rfl
  | cons t rest =>
    have ht2 : t.2 ≠ "" := h t (List.mem_cons_self t rest)
    unfold selectTranslationText
    rw [List.foldl_cons]
    have hstep : (if t.1 == "en" || ("" == "") then t.2 else ("" : String)) = t.2 := by
      simp
    rw [hstep, selectTranslationGo rest t.2 ht2
      (fun u hu => h u (List.mem_cons_of_mem t hu))]
    by_cases het : t.1 == "en"
    · have hfc : (t :: rest).filter (fun u => u.1 == "en") =
          t :: rest.filter (fun u => u.1 == "en") := by
        simp [List.filter_cons, het]
      rw [hfc]
      cases hf : rest.filter (fun u => u.1 == "en") with
      | nil => simp
      | cons u us =>
        obtain ⟨v, hv⟩ := Option.isSome_iff_exists.mp
          (List.getLast?_isSome.mpr (List.cons_ne_nil u us))
        simp [hv]
    · have hfc : (t :: rest).filter (fun u => u.1 == "en") =
          rest.filter (fun u => u.1 == "en") := by
        simp [List.filter_cons, het]
      rw [hfc]

/-- Witness for the amended C6: `[("fr","X"), ("en","Y"), ("en","Z")]`
selects `"Z"` — the last `"en"`-tagged translation. -/
theorem alert_translation_selection_witness :
    selectTranslationText [("fr", "X"), ("en", "Y"), ("en", "Z")] = "Z" := by
  have h := alert_translation_selection [("fr", "X"), ("en", "Y"), ("en", "Z")]
    (by decide)
  simpa using h

/-! ## Claim C9 — list_routes ordering and color rendering -/

/-- C9: for every routes map — hence regardless of insertion order —
`list_routes` returns exactly the projected routes (a permutation of the
map's values) sorted ascending by short name; a route with no color
value (or an empty one, which Python treats as falsy) surfaces `color`
as absent, never a placeholder string; a truthy color `c` is rendered as
`"#" ++ c`. -/
theorem list_routes_props (g : GTFSData) :
    List.Sorted shortNameLe (list_routes g) ∧
    (list_routes g).Perm (g.routes.map fun kv => routeToOut kv.2) ∧
    (∀ r : Route, r.route_color = none → (routeToOut r).color = none) ∧
    (∀ (r : Route) (c : String), r.route_color = some c → c ≠ "" →
      (routeToOut r).color = some ("#" ++ c)) := by
  refine ⟨List.sorted_insertionSort shortNameLe _,
    List.perm_insertionSort shortNameLe _, ?_, ?_⟩
  · intro r hr
    simp [routeToOut, hr]
  · intro r c hc hne
    simp [routeToOut, hc, hne]

/-- Witness for C9: two routes inserted in reverse short-name order come
out sorted; the colorless route surfaces `color = none`; the colored one
surfaces `"#FF0000"`. -/
theorem list_routes_props_witness :
    List.Sorted shortNameLe (list_routes
      ⟨[("R2", ⟨"R2", "B", "Blue Loop", none⟩),
        ("R1", ⟨"R1", "A", "Red Link", some "FF0000"⟩)], [], []⟩) ∧
    (routeToOut ⟨"R2", "B", "Blue Loop", none⟩).color = none ∧
    (routeToOut ⟨"R1", "A", "Red Link", some "FF0000"⟩).color = some "#FF0000" := by
  refine ⟨(list_routes_props
      ⟨[("R2", ⟨"R2", "B", "Blue Loop", none⟩),
        ("R1", ⟨"R1", "A", "Red Link", some "FF0000"⟩)], [], []⟩).1,
    (list_routes_props ⟨[], [], []⟩).2.2.1 ⟨"R2", "B", "Blue Loop", none⟩ rfl, ?_⟩
  have h := (list_routes_props ⟨[], [], []⟩).2.2.2
    ⟨"R1", "A", "Red Link", some "FF0000"⟩ "FF0000" rfl (by decide)
  simpa using h

/-! ## Claim C7 — lookup misses yield empty results, not errors -/

/-- The scheduled-table build over stop-times none of which matches the
queried stop id returns the table unchanged — in particular it cannot
fail, since the parse step is never reached. -/
theorem buildGo_no_match (sid : String) (nowDT horizonDT : AwareDT)
    (nowDate tz : Int) (trips : List (String × Trip)) :
    ∀ (l : List StopTime) (tbl : List (String × SchedInfo)),
    (∀ st ∈ l, st.stop_id ≠ sid) →
    buildGo sid nowDT horizonDT nowDate tz trips l tbl = some tbl := by
  intro l
  induction l with
  | nil => intro tbl _; rfl
  | cons st rest ih =>
    intro tbl h
    have hne : (st.stop_id == sid) = false := by
      simpa using h st (List.mem_cons_self st rest)
    simp only [buildGo, hne, Bool.false_eq_true, if_false]
    exact ih tbl (fun u hu => h u (List.mem_cons_of_mem st hu))

/-- C7: an id absent from the data is never an error — `next_arrivals` on
a stop id matching no static stop-time returns `some []` (an empty list,
no exception), `vehicle_positions` on a route id no vehicle is associated
with returns `[]`, and `trip_alerts` on a (nonempty) route id no informed
entity mentions returns `[]`. -/
theorem lookup_miss_empty (g : GTFSData) (rtd : RealtimeData) (sid : String)
    (hm nw tz : Int) (rid : String)
    (h1 : ∀ st ∈ g.stop_times, st.stop_id ≠ sid)
    (h2 : ∀ kv ∈ rtd.vehicle_positions, kv.2.route_id ≠ some rid)
    (h3 : rid ≠ "")
    (h4 : ∀ a ∈ rtd.alerts, ∀ e ∈ a.informed_entities, e.route_id ≠ some rid) :
    next_arrivals g rtd sid hm nw tz = some [] ∧
    vehicle_positions rtd rid = [] ∧
    trip_alerts rtd (some rid) = [] := by
  refine ⟨?_, ?_, ?_⟩
  · simp only [next_arrivals, unsortedArrivals]
    rw [buildGo_no_match sid ⟨nw, tz⟩ (pyAddMinutes ⟨nw, tz⟩ hm) (nw.fdiv 86400)
      tz g.trips g.stop_times [] h1]
    rfl
  · unfold vehicle_positions
    rw [List.filterMap_eq_nil_iff]
    intro kv hkv
    have hne : (kv.2.route_id == some rid) = false := by
      simpa using h2 kv hkv
    simp [hne]
  · unfold trip_alerts
    have hfil : (rtd.alerts.filter fun a =>
        match some rid with
        | some r => if r ≠ "" then alertRelevant r a else true
        | none => true) = [] := by
      rw [List.filter_eq_nil_iff]
      intro a ha
      simp only [if_pos h3]
      unfold alertRelevant
      simp only [List.any_eq_true, not_exists, not_and, Bool.not_eq_true]
      intro e he
      simpa using h4 a ha e he
    rw [hfil]
    rfl

/-- Witness for C7: non-trivial data — a stop-time for another stop, a
vehicle on another route, an alert informing another route — still yields
the three empty results for the unknown ids. -/
theorem lookup_miss_empty_witness :
    next_arrivals ⟨[], [("T1", ⟨"T1", "R1"⟩)], [⟨"T1", "OTHER", "08:00:00", 1⟩]⟩
        ⟨[("V1", ⟨"V1", none, some "R1", 11, 22, none, none, none⟩)], [],
         [⟨"A1", "Detour", none, "WARNING", [], [⟨some "R1", none, none⟩]⟩],
         none, none, none⟩
        "NOPE" 30 1717232340 (-14400) = some [] ∧
    vehicle_positions
        ⟨[("V1", ⟨"V1", none, some "R1", 11, 22, none, none, none⟩)], [],
         [⟨"A1", "Detour", none, "WARNING", [], [⟨some "R1", none, none⟩]⟩],
         none, none, none⟩ "R9" = [] ∧
    trip_alerts
        ⟨[("V1", ⟨"V1", none, some "R1", 11, 22, none, none, none⟩)], [],
         [⟨"A1", "Detour", none, "WARNING", [], [⟨some "R1", none, none⟩]⟩],
         none, none, none⟩ (some "R9") = [] := by
  exact lookup_miss_empty
    ⟨[], [("T1", ⟨"T1", "R1"⟩)], [⟨"T1", "OTHER", "08:00:00", 1⟩]⟩
    ⟨[("V1", ⟨"V1", none, some "R1", 11, 22, none, none, none⟩)], [],
     [⟨"A1", "Detour", none, "WARNING", [], [⟨some "R1", none, none⟩]⟩],
     none, none, none⟩
    "NOPE" 30 1717232340 (-14400) "R9"
    (by decide) (by decide) (by decide) (by decide)

/-! ## Claim C3 — failed poll cycles publish nothing; the loop continues -/

/-- A failed cycle leaves the category state untouched. -/
theorem pollCycle_of_fails {α : Type} (decode : List Nat → Option α)
    (c : PollInput) (s : PollState α) (h : cycleFails decode c) :
    pollCycle decode c s = s := by
  unfold pollCycle
  unfold cycleFails at h
  match hc : c.fetched with
  | none => rfl
  | some bytes =>
    rw [hc] at h
    rcases h with h | h
    · simp [h]
    · rcases hb : bytes.isEmpty with _ | _
      · simp [hb, h]
      · simp [hb]

/-- C3: for any category (any snapshot type `α` and decode-transform
function), a run of cycles that all fail — fetch error, falsy payload, or
decode/transform exception — leaves the category's snapshot and freshness
timestamp exactly as they were (the loop keeps processing every cycle,
never terminating on failure), and appending one successful cycle then
publishes exactly the decoded snapshot together with that cycle's
timestamp. -/
theorem poll_failure_preserved_success_updates {α : Type}
    (decode : List Nat → Option α) (s : PollState α) (cs : List PollInput)
    (hfail : ∀ c ∈ cs, cycleFails decode c)
    (bytes : List Nat) (t : Int) (snap : α)
    (hbytes : bytes.isEmpty = false) (hdec : decode bytes = some snap) :
    pollLoop decode cs s = s ∧
    pollLoop decode (cs ++ [⟨some bytes, t⟩]) s = ⟨snap, some t⟩ := by
  have hkeep : pollLoop decode cs s = s := by
    induction cs with
    | nil => rfl
    | cons c rest ih =>
      have hc := hfail c (List.mem_cons_self c rest)
      unfold pollLoop
      rw [List.foldl_cons, pollCycle_of_fails decode c s hc]
      exact ih (fun u hu => hfail u (List.mem_cons_of_mem c hu))
  refine ⟨hkeep, ?_⟩
  unfold pollLoop
  rw [List.foldl_append]
  show pollCycle decode ⟨some bytes, t⟩ (pollLoop decode cs s) = _
  rw [hkeep]
  unfold pollCycle
  simp [hbytes, hdec]

/-- Witness for C3: three failing cycles (fetch `None`, empty payload,
undecodable payload) leave state `⟨0, none⟩` unchanged; the following
successful cycle publishes snapshot 42 with timestamp 9. -/
theorem poll_failure_preserved_success_updates_witness :
    pollLoop (fun b => if b = [7] then some 42 else none)
      [⟨none, 1⟩, ⟨some [], 2⟩, ⟨some [3], 3⟩] ⟨0, none⟩ = ⟨0, none⟩ ∧
    pollLoop (fun b => if b = [7] then some 42 else none)
      ([⟨none, 1⟩, ⟨some [], 2⟩, ⟨some [3], 3⟩] ++ [⟨some [7], 9⟩]) ⟨0, none⟩ =
      ⟨42, some 9⟩ := by
  exact poll_failure_preserved_success_updates
    (fun b => if b = [7] then some 42 else none) ⟨0, none⟩
    [⟨none, 1⟩, ⟨some [], 2⟩, ⟨some [3], 3⟩]
    (by
      intro c hc
      fin_cases hc <;> simp [cycleFails])
    [7] 9 42 (by decide) (by decide)

/-! ## Claim C10 — at most one prediction per trip id -/

/-- Membership in the keys after an upsert: either an old key or the
upserted one. -/
theorem mem_keys_upsert {α : Type} (k x : String) (v : α) :
    ∀ tbl : List (String × α),
    x ∈ (upsert k v tbl).map Prod.fst → x ∈ tbl.map Prod.fst ∨ x = k := by
  intro tbl
  induction tbl with
  | nil =>
    intro h
    simp only [upsert, List.map_cons, List.map_nil] at h
    right
    simpa using h
  | cons kv rest ih =>
    intro h
    by_cases hk : (kv.1 == k) = true
    · simp only [upsert, hk, if_true] at h
      left
      simpa using h
    · simp only [upsert, hk, Bool.false_eq_true, if_false, List.map_cons,
        List.mem_cons] at h
      rcases h with h | h
      · left
        simp [h]
      · rcases ih h with h' | h'
        · left
          simp [h']
        · right
          exact h'

/-- Upserting preserves key distinctness. -/
theorem nodup_keys_upsert {α : Type} (k : String) (v : α) :
    ∀ tbl : List (String × α),
    (tbl.map Prod.fst).Nodup → ((upsert k v tbl).map Prod.fst).Nodup := by
  intro tbl
  induction tbl with
  | nil => intro _; simp [upsert]
  | cons kv rest ih =>
    intro h
    simp only [List.map_cons, List.nodup_cons] at h
    by_cases hk : (kv.1 == k) = true
    · simp only [upsert, hk, if_true, List.map_cons, List.nodup_cons]
      exact h
    · simp only [upsert, hk, Bool.false_eq_true, if_false, List.map_cons,
        List.nodup_cons]
      refine ⟨fun hmem => ?_, ih h.2⟩
      rcases mem_keys_upsert k kv.1 v rest hmem with h' | h'
      · exact h.1 h'
      · exact hk (by simp [h'])

/-- Looking up the upserted key returns the new value: a later write for
the same key overwrites the earlier one. -/
theorem lookup_upsert {α : Type} (k : String) (v : α) :
    ∀ tbl : List (String × α), (upsert k v tbl).lookup k = some v := by
  intro tbl
  induction tbl with
  | nil => simp [upsert, List.lookup]
  | cons kv rest ih =>
    rcases kv with ⟨k1, v1⟩
    by_cases hk : (k1 == k) = true
    · have hke : k1 = k := by simpa using hk
      subst hke
      simp [upsert, List.lookup]
    · have hbe : (k == k1) = false := by
        simp only [beq_eq_false_iff_ne, ne_eq]
        intro hke
        exact hk (by simp [hke])
      simp only [upsert, hk, Bool.false_eq_true, if_false, List.lookup, hbe]
      exact ih

/-- The scheduled-table build keeps the table's keys distinct. -/
theorem buildGo_keys_nodup (sid : String) (nowDT horizonDT : AwareDT)
    (nowDate tz : Int) (trips : List (String × Trip)) :
    ∀ (l : List StopTime) (tbl tbl' : List (String × SchedInfo)),
    (tbl.map Prod.fst).Nodup →
    buildGo sid nowDT horizonDT nowDate tz trips l tbl = some tbl' →
    (tbl'.map Prod.fst).Nodup := by
  intro l
  induction l with
  | nil =>
    intro tbl tbl' hnd h
    cases h
    exact hnd
  | cons st rest ih =>
    intro tbl tbl' hnd h
    by_cases hs : (st.stop_id == sid) = true
    · simp only [buildGo, hs, if_true] at h
      cases hres : resolveScheduled nowDate tz st.arrival_time with
      | none =>
        rw [hres] at h
        cases h
      | some sched =>
        rw [hres] at h
        by_cases hw : inWindow nowDT horizonDT sched = true
        · simp only [hw, if_true] at h
          cases hlu : trips.lookup st.trip_id with
          | none =>
            rw [hlu] at h
            exact ih tbl tbl' hnd h
          | some trip =>
            rw [hlu] at h
            exact ih _ tbl'
              (nodup_keys_upsert st.trip_id ⟨trip.route_id, sched, st.stop_sequence⟩
                tbl hnd) h
        · simp only [Bool.not_eq_true] at hw
          simp only [hw, Bool.false_eq_true, if_false] at h
          exact ih tbl tbl' hnd h
    · simp only [buildGo, hs, Bool.false_eq_true, if_false] at h
      exact ih tbl tbl' hnd h

/-- The reconciler emits the trip id it was handed, in every branch. -/
theorem reconcileArrival_trip_id (rtd : RealtimeData) (sid tid : String)
    (si : SchedInfo) : (reconcileArrival rtd sid tid si).trip_id = tid := by
  cases hlu : rtd.trip_updates.lookup tid with
  | none => simp [reconcileArrival, hlu]
  | some tu =>
    cases hfind : tu.stop_time_updates.find? (fun u => u.stop_id == sid) with
    | none => simp [reconcileArrival, hlu, hfind]
    | some stu =>
      cases hd : stu.arrival_delay with
      | some d => simp [reconcileArrival, hlu, hfind, hd]
      | none =>
        cases ht : stu.arrival_time with
        | none => simp [reconcileArrival, hlu, hfind, hd, ht]
        | some ot =>
          cases ot with
          | none => simp [reconcileArrival, hlu, hfind, hd, ht]
          | some t =>
            by_cases ht0 : t ≠ 0 <;>
              simp [reconcileArrival, hlu, hfind, hd, ht, ht0]

/-- C10: the emitted arrival list never carries two predictions for the
same trip id — the per-trip table keys stay distinct, duplicate in-window
visits of the queried stop collapsing because a later-scanned stop-time
overwrites the earlier table entry (`lookup_upsert`-style semantics,
restated here as the second conjunct). -/
theorem one_prediction_per_trip (g : GTFSData) (rtd : RealtimeData)
    (sid : String) (hm nw tz : Int) (l : List ArrivalInfo)
    (h : next_arrivals g rtd sid hm nw tz = some l) :
    (l.map fun a => a.trip_id).Nodup ∧
    (∀ (k : String) (v : SchedInfo) (tbl : List (String × SchedInfo)),
      (upsert k v tbl).lookup k = some v) := by
  refine ⟨?_, fun k v tbl => lookup_upsert k v tbl⟩
  simp only [next_arrivals, unsortedArrivals] at h
  cases htbl : buildGo sid ⟨nw, tz⟩ (pyAddMinutes ⟨nw, tz⟩ hm) (nw.fdiv 86400)
      tz g.trips g.stop_times [] with
  | none =>
    rw [htbl] at h
    cases h
  | some tbl =>
    rw [htbl] at h
    simp only [Option.map, Option.bind, Option.some_inj] at h
    have hnd : (tbl.map Prod.fst).Nodup :=
      buildGo_keys_nodup sid ⟨nw, tz⟩ (pyAddMinutes ⟨nw, tz⟩ hm) (nw.fdiv 86400)
        tz g.trips g.stop_times [] tbl (by simp) htbl
    have hperm : List.Perm l (tbl.map fun kv => reconcileArrival rtd sid kv.1 kv.2) := by
      rw [← h]
      exact List.perm_insertionSort isoLe _
    have hmap : ((tbl.map fun kv => reconcileArrival rtd sid kv.1 kv.2).map
        fun a => a.trip_id) = tbl.map Prod.fst := by
      rw [List.map_map]
      exact List.map_congr_left (fun kv _ =>
        reconcileArrival_trip_id rtd sid kv.1 kv.2)
    have hnp := List.Perm.nodup_iff (List.Perm.map (fun a => a.trip_id) hperm)
    rw [hmap] at hnp
    exact hnp.mpr hnd

/-- Witness for C10: a trip visiting the queried stop twice inside the
horizon (09:00 and 09:10) collapses to the single 09:10 prediction — the
later-scanned stop-time overwrote the earlier table entry — and the
emitted trip ids are distinct. -/
theorem one_prediction_per_trip_witness :
    (([⟨"T1", "R1", ⟨1717233000, -14400⟩, "2024-06-01T09:10:00-04:00", 0⟩] :
        List ArrivalInfo).map fun a => a.trip_id).Nodup ∧
    next_arrivals ⟨[], [("T1", ⟨"T1", "R1"⟩)],
        [⟨"T1", "S", "09:00:00", 1⟩, ⟨"T1", "S", "09:10:00", 5⟩]⟩
      ⟨[], [], [], none, none, none⟩ "S" 60 1717232340 (-14400) =
      some [⟨"T1", "R1", ⟨1717233000, -14400⟩, "2024-06-01T09:10:00-04:00", 0⟩] := by
  refine ⟨(one_prediction_per_trip ⟨[], [("T1", ⟨"T1", "R1"⟩)],
      [⟨"T1", "S", "09:00:00", 1⟩, ⟨"T1", "S", "09:10:00", 5⟩]⟩
    ⟨[], [], [], none, none, none⟩ "S" 60 1717232340 (-14400)
    [⟨"T1", "R1", ⟨1717233000, -14400⟩, "2024-06-01T09:10:00-04:00", 0⟩]
    (by decide)).1, by decide⟩

/-! ## Claim C2 — what order the arrival list is actually sorted in -/

/-- Static data for the sorting counterexample: two trips serving stop
`"S"` at 09:00:00 and 09:30:00 local. -/
def gSort : GTFSData :=
  { trips := [("A", ⟨"A", "R1"⟩), ("B", ⟨"B", "R2"⟩)],
    stop_times := [⟨"A", "S", "09:00:00", 1⟩, ⟨"B", "S", "09:30:00", 2⟩] }

/-- Realtime data for the sorting counterexample: trip `"B"` carries an
absolute arrival time 1717236000 (2024-06-01T10:00:00Z) and no delay. -/
def rtSort : RealtimeData :=
  { trip_updates := [("B", ⟨"B", none, none, 0,
      [⟨"S", none, none, some (some 1717236000), none, none⟩]⟩)] }

/-- Counterexample to C2: with `now` = 08:59:00 local (offset −4 h) and a
60-minute horizon, the emitted list's predicted instants are
`[1717246800, 1717236000]` — descending, not ascending.  The
schedule-only entry renders with offset −04:00 and the realtime-absolute
entry with +00:00, and the lexicographic ISO-string sort does not order
mixed-offset strings chronologically. -/
theorem arrivals_sort_cex :
    ((next_arrivals gSort rtSort "S" 60 1717232340 (-14400)).map
      (fun l => l.map fun a => instant a.arrival_dt)) =
      some [1717246800, 1717236000] ∧
    ¬ ((1717246800 : Int) ≤ 1717236000) := by
  refine ⟨by decide, by decide⟩

/-- C2 as amended: the list returned by `next_arrivals` is sorted
ascending by the emitted `arrival_time_iso` STRING (lexicographic by code
point), ties broken by the original relative order (the sort is stable);
this coincides with the predicted-absolute-instant order only when all
entries render with one and the same UTC offset. -/
theorem arrivals_sorted_by_iso (g : GTFSData) (rtd : RealtimeData)
    (sid : String) (hm nw tz : Int) (u l : List ArrivalInfo)
    (hu : unsortedArrivals g rtd sid hm nw tz = some u)
    (hl : next_arrivals g rtd sid hm nw tz = some l) :
    List.Sorted isoLe l ∧ List.Perm l u ∧
    (∀ a b : ArrivalInfo, List.Sublist [a, b] u →
      a.arrival_time_iso = b.arrival_time_iso → List.Sublist [a, b] l) := by
  unfold next_arrivals at hl
  rw [hu] at hl
  simp only [Option.map, Option.some_inj] at hl
  subst hl
  refine ⟨List.sorted_insertionSort isoLe u, List.perm_insertionSort isoLe u,
    fun a b hab heq => ?_⟩
  exact List.pair_sublist_insertionSort
    (by
      show pyStrLe a.arrival_time_iso b.arrival_time_iso = true
      rw [heq]
      exact strLeAux_refl b.arrival_time_iso.data) hab

/-- Witness for the amended C2: on the counterexample data the output is
the ISO-sorted (stable) permutation of the unsorted per-trip list. -/
theorem arrivals_sorted_by_iso_witness :
    List.Sorted isoLe
      [⟨"A", "R1", ⟨1717232400, -14400⟩, "2024-06-01T09:00:00-04:00", 0⟩,
       ⟨"B", "R2", ⟨1717236000, 0⟩, "2024-06-01T10:00:00+00:00", -12600⟩] ∧
    List.Perm
      ([⟨"A", "R1", ⟨1717232400, -14400⟩, "2024-06-01T09:00:00-04:00", 0⟩,
        ⟨"B", "R2", ⟨1717236000, 0⟩, "2024-06-01T10:00:00+00:00", -12600⟩] :
        List ArrivalInfo)
      [⟨"A", "R1", ⟨1717232400, -14400⟩, "2024-06-01T09:00:00-04:00", 0⟩,
       ⟨"B", "R2", ⟨1717236000, 0⟩, "2024-06-01T10:00:00+00:00", -12600⟩] ∧
    (∀ a b : ArrivalInfo, List.Sublist [a, b]
        [⟨"A", "R1", ⟨1717232400, -14400⟩, "2024-06-01T09:00:00-04:00", 0⟩,
         ⟨"B", "R2", ⟨1717236000, 0⟩, "2024-06-01T10:00:00+00:00", -12600⟩] →
      a.arrival_time_iso = b.arrival_time_iso → List.Sublist [a, b]
        [⟨"A", "R1", ⟨1717232400, -14400⟩, "2024-06-01T09:00:00-04:00", 0⟩,
         ⟨"B", "R2", ⟨1717236000, 0⟩, "2024-06-01T10:00:00+00:00", -12600⟩]) :=
  arrivals_sorted_by_iso gSort rtSort "S" 60 1717232340 (-14400)
    [⟨"A", "R1", ⟨1717232400, -14400⟩, "2024-06-01T09:00:00-04:00", 0⟩,
     ⟨"B", "R2", ⟨1717236000, 0⟩, "2024-06-01T10:00:00+00:00", -12600⟩]
    [⟨"A", "R1", ⟨1717232400, -14400⟩, "2024-06-01T09:00:00-04:00", 0⟩,
     ⟨"B", "R2", ⟨1717236000, 0⟩, "2024-06-01T10:00:00+00:00", -12600⟩]
    (by decide) (by decide)
